import Mathlib

/-!
Shallow embedding of the temporal-alignment and memoization core of the
ensemble trading system (`system/interfaces.py`, plus the `Collection`
container of `data_types/__init__.py`).

Conventions of the embedding:
* Python strings that hold timing buckets (`"OO"`, `"C"`, ...) are `List Char`.
* A pandas `DataFrame` column is a `List (Option v)`: `none` is `NaN`.
  `DataFrame.shift(k)` places the value of row `i - k` at row `i` (and `NaN`
  where `i - k` falls outside the frame), which is `dfShift` below.
* A raised exception (`ValueError`, `IndexError`, `KeyError`) is `none` of an
  `Option` result.
* Python object identity (`id(self)`) is a `Nat` tag carried by the stage.
-/

/-- The five recognized timing labels (the keys of `Indexer.timing_map`). -/
inductive TimingLabel
  | decision
  | entry
  | exit
  | open_
  | close
deriving DecidableEq, Fintype

/-- `"OC" in s` for a bucket string `s` (Python substring test). -/
def hasOC : List Char → Bool
  | [] => false
  | [_] => false
  | a :: b :: t => (a = 'O' && b = 'C') || hasOC (b :: t)

/-- `DataFrame.shift` of pandas on one column: row `i` of the result holds the
value of row `i - k` of the input, `none` (NaN) when `i - k` is out of range.
The length of the frame is unchanged. -/
def dfShift {v : Type} (d : List (Option v)) (k : Int) : List (Option v) :=
  (List.range d.length).map fun (i : Nat) =>
    if h : 0 ≤ (i : Int) - k ∧ (i : Int) - k < (d.length : Int) then
      d.get ⟨((i : Int) - k).toNat, by omega⟩
    else
      none

/-- `Indexer` (the spec's TimingModel): the two configuration strings.
`Indexer.init` below models the validating constructor. -/
structure Indexer where
  trade_timing : List Char
  ind_timing : List Char
deriving DecidableEq

/-- `Indexer.__init__`: raises `ValueError` (here `none`) unless
`trade_timing` is `"OO"` or `"CC"` and `ind_timing` is `"O"` or `"C"`. -/
def Indexer.init (trade_timing ind_timing : List Char) : Option Indexer :=
  if trade_timing = ['O', 'O'] ∨ trade_timing = ['C', 'C'] then
    if ind_timing = ['O'] ∨ ind_timing = ['C'] then
      some ⟨trade_timing, ind_timing⟩
    else
      none
  else
    none

/-- `Indexer.timing_map`: label to bucket string.  `trade_timing[0]` is
`take 1` and `trade_timing[-1]` is `drop (length - 1)` (each a one-character
string for every configuration the constructor accepts). -/
def Indexer.timing_map (self : Indexer) : TimingLabel → List Char
  | .decision => self.ind_timing
  | .entry => self.trade_timing.take 1
  | .exit => self.trade_timing.drop (self.trade_timing.length - 1)
  | .open_ => ['O']
  | .close => ['C']

/-- `Indexer.convert_timing`: the five recognized labels are exactly the keys
of `timing_map`, so on `TimingLabel` the lookup is total. -/
def Indexer.convert_timing (self : Indexer) (timing : TimingLabel) : List Char :=
  self.timing_map timing

/-- `Indexer.get_lag`: 0 when `"OC"` occurs in the concatenation of the two
converted bucket strings, else 1. -/
def Indexer.get_lag (self : Indexer) (start finish : TimingLabel) : Int :=
  let s := self.convert_timing start
  let e := self.convert_timing finish
  if hasOC (s ++ e) then 0 else 1

/-- The lag chosen inside `Indexer.market_returns`:
`0` when `trade_timing == "OC"`, else `1`. -/
def Indexer.market_returns_lag (self : Indexer) : Int :=
  if self.trade_timing = ['O', 'C'] then 0 else 1

/-- The market data provider of `Indexer.market_returns`: its `open` and
`close` tables (one column each in this embedding). -/
structure Market where
  open_ : List (Option Rat)
  close : List (Option Rat)

/-- `getattr(market, timing_map[c])` for `timing_map = {"O":"open","C":"close"}`;
`none` models the `KeyError` on any other character. -/
def Market.series (m : Market) (c : Char) : Option (List (Option Rat)) :=
  if c = 'O' then some m.open_
  else if c = 'C' then some m.close
  else none

/-- Elementwise `a / b` with NaN propagation. -/
def optDiv (a b : Option Rat) : Option Rat :=
  match a, b with
  | some x, some y => some (x / y)
  | _, _ => none

/-- Body of `Indexer.market_returns` with the lag as a parameter:
`(trade_open / trade_close.shift(lag)) - 1`. -/
def Indexer.market_returns_with (self : Indexer) (market : Market) (lag : Int) :
    Option (List (Option Rat)) :=
  match market.series (self.trade_timing.getD 0 ' '),
        market.series (self.trade_timing.getD 1 ' ') with
  | some trade_open, some trade_close =>
      some ((List.zipWith optDiv trade_open (dfShift trade_close lag)).map
        (Option.map (fun x => x - 1)))
  | _, _ => none

/-- `Indexer.market_returns`: computes the lag by the `trade_timing == "OC"`
test and applies it to the trade-close series before dividing. -/
def Indexer.market_returns (self : Indexer) (market : Market) :
    Option (List (Option Rat)) :=
  self.market_returns_with market self.market_returns_lag

/-- `DataElement` (the spec's TemporalDataObject): one data column, the
calculation timing labels, the accumulated lag, the indexer used for further
alignment, and the producing stage's identity (`none` before stamping). -/
structure DataElement where
  data : List (Option Int)
  calculation_timing : List TimingLabel
  lag : Int
  indexer : Indexer
  creator : Option Nat
deriving DecidableEq

/-- `DataElement.shift`: copy, shift the copied data, add to the lag.
The receiver is untouched (see the heap-explicit `shiftH` for the aliasing
content of that statement). -/
def DataElement.shift (self : DataElement) (lag : Int) : DataElement :=
  { self with data := dfShift self.data lag, lag := self.lag + lag }

/-- `DataElement.get_lag`: `self.indexer.get_lag(self.calculation_timing[-1],
target_timing)`; `none` models the `IndexError` on an empty timing list. -/
def DataElement.get_lag (self : DataElement) (target_timing : TimingLabel) :
    Option Int :=
  match self.calculation_timing.getLast? with
  | some start => some (self.indexer.get_lag start target_timing)
  | none => none

/-- `DataElement.at`: shift by the lag appropriate for the timing. -/
def DataElement.at_ (self : DataElement) (timing : TimingLabel) :
    Option DataElement :=
  (self.get_lag timing).map fun lag => self.shift lag

/-- `DataElement.align_with`: `alignment_lag` from this data's calculation end
to the other's calculation start, `total_lag = alignment_lag + other.lag`,
result is `self.shift(total_lag)`. -/
def DataElement.align_with (self other : DataElement) : Option DataElement :=
  match other.calculation_timing.head? with
  | some t0 =>
      (self.get_lag t0).map fun alignment_lag =>
        self.shift (alignment_lag + other.lag)
  | none => none

/-- A trade record (a `CollectionItem`); the fields stand for whatever data a
realized trade carries. -/
structure Trade where
  ticker : List Char
  profit : Int
deriving DecidableEq

/-- The `Collection` container of `data_types`: a list of items.  Concrete
subclasses implement `copy_with` as "same kind of collection, new items",
which is what the constructor does here. -/
structure Collection where
  items : List Trade
deriving DecidableEq

/-- `Collection.find`: keep the items satisfying the condition, in a new
collection. -/
def Collection.find (self : Collection) (condition : Trade → Bool) : Collection :=
  ⟨self.items.filter condition⟩

/-- The strategy context: one cache slot per stage category, the shared
indexer, and the trade collection used by filters. -/
structure Strategy where
  signal : Option DataElement
  positions : Option DataElement
  indexer : Indexer
  trades : Collection

/-- `StrategyElement`: the stage base class.  `ID` is the Python object
identity `id(self)`; `execute` is the subclass's numeric transform;
`get_result` and `calculation_timing` are the subclass-fixed slot lookup and
timing; `starting_lag` is the base implementation's `0` unless a subclass
overrides it. -/
structure StrategyElement where
  ID : Nat
  execute : Strategy → DataElement
  get_result : Strategy → Option DataElement
  calculation_timing : List TimingLabel
  starting_lag : Int

/-- `StrategyElement.created`: the result exists and records this stage's
identity as its creator. -/
def StrategyElement.created (self : StrategyElement)
    (result : Option DataElement) : Bool :=
  match result with
  | none => false
  | some r => r.creator = some self.ID

/-- The four stamping assignments of `StrategyElement.__call__`'s cache-miss
branch applied to a fresh `execute` result. -/
def StrategyElement.stamp (self : StrategyElement) (strategy : Strategy) :
    DataElement :=
  let result := self.execute strategy
  { result with
      creator := some self.ID
      indexer := strategy.indexer
      calculation_timing := self.calculation_timing
      lag := self.starting_lag }

/-- `StrategyElement.__call__`.  The method assigns only attributes of the
(fresh) result object, never an attribute of `strategy`, so the context after
the call is the context passed in; it is returned explicitly as the first
component to make that visible. -/
def StrategyElement.call (self : StrategyElement) (strategy : Strategy) :
    Strategy × DataElement :=
  match self.get_result strategy with
  | some result =>
      if result.creator = some self.ID then (strategy, result)
      else (strategy, self.stamp strategy)
  | none => (strategy, self.stamp strategy)

/-- `SignalElement`: slot `strategy.signal`, timing `["decision"]`, base
`starting_lag` of 0. -/
def SignalElement (id0 : Nat) (execute : Strategy → DataElement) :
    StrategyElement :=
  { ID := id0
    execute := execute
    get_result := fun strategy => strategy.signal
    calculation_timing := [TimingLabel.decision]
    starting_lag := 0 }

/-- `PositionRuleElement`: slot `strategy.positions`, timing `["entry"]`,
base `starting_lag` of 0. -/
def PositionRuleElement (id0 : Nat) (execute : Strategy → DataElement) :
    StrategyElement :=
  { ID := id0
    execute := execute
    get_result := fun strategy => strategy.positions
    calculation_timing := [TimingLabel.entry]
    starting_lag := 0 }

/-- `FilterInterface`: a stage holding the `accepted_trade` predicate. -/
structure FilterInterface where
  accepted_trade : Trade → Bool

/-- `FilterInterface.__call__`: `strategy.trades.find(self.accepted_trade)`. -/
def FilterInterface.call (self : FilterInterface) (strategy : Strategy) :
    Collection :=
  strategy.trades.find self.accepted_trade

/-!
Heap-explicit rendering of `DataElement.shift`, to state the aliasing clause
of the spec (the shifted `data` is a private copy, not sharing a backing
buffer with the receiver's).  A buffer is one data column; a heap is the list
of allocated buffers; a data element holds the address of its buffer.
-/

/-- A backing buffer for a `data` attribute. -/
abbrev Buffer := List (Option Int)

/-- The allocated buffers; an address is an index into the list. -/
structure Heap where
  bufs : List Buffer

/-- Allocate a fresh buffer, returning the new heap and the fresh address. -/
def Heap.alloc (h : Heap) (b : Buffer) : Heap × Nat :=
  (⟨h.bufs ++ [b]⟩, h.bufs.length)

/-- Read the buffer at an address (empty for a dangling address). -/
def Heap.read (h : Heap) (r : Nat) : Buffer :=
  h.bufs.getD r []

/-- A `DataElement` whose `data` attribute is an address into the heap. -/
structure DataElementRef where
  dataRef : Nat
  calculation_timing : List TimingLabel
  lag : Int
  indexer : Indexer
  creator : Option Nat

/-- `DataElement.shift` with the heap explicit, line by line:
`lagged = self.copy()` deep-copies, giving `lagged` a fresh buffer holding a
copy of the receiver's data; `lagged.data = self.data.copy()` rebinds it to
another fresh copy of the receiver's data; `lagged.data =
lagged.data.shift(lag)` rebinds it to the fresh frame pandas `shift` returns;
`lagged.lag += lag`. -/
def shiftH (h : Heap) (self : DataElementRef) (lag : Int) :
    Heap × DataElementRef :=
  let p1 := h.alloc (h.read self.dataRef)
  let lagged := { self with dataRef := p1.2 }
  let p2 := p1.1.alloc (p1.1.read self.dataRef)
  let lagged := { lagged with dataRef := p2.2 }
  let p3 := p2.1.alloc (dfShift (p2.1.read lagged.dataRef) lag)
  let lagged := { lagged with dataRef := p3.2 }
  let lagged := { lagged with lag := lagged.lag + lag }
  (p3.1, lagged)

/-!
Concrete instances used by the closed instance theorems below.
-/

/-- The close-to-close indexer with close-bucket decisions. -/
def ixCC : Indexer := ⟨['C', 'C'], ['C']⟩

/-- The open-to-open indexer with open-bucket decisions. -/
def ixOO : Indexer := ⟨['O', 'O'], ['O']⟩

/-- A stamped signal-style data element under `ixCC`, creator tag 7. -/
def deSignal : DataElement :=
  { data := [some 1, some 2, some 3]
    calculation_timing := [TimingLabel.decision]
    lag := 0
    indexer := ixCC
    creator := some 7 }

/-- A data element built under `ixOO` (a different timing model). -/
def deOther : DataElement :=
  { data := [some 4, some 5, some 6]
    calculation_timing := [TimingLabel.entry]
    lag := 0
    indexer := ixOO
    creator := none }

/-- A concrete `execute` body: returns an unstamped result computed from the
strategy (the fields a fresh result happens to carry before stamping). -/
def exeConst : Strategy → DataElement :=
  fun strategy =>
    { data := [some 10, some 20]
      calculation_timing := []
      lag := 5
      indexer := strategy.indexer
      creator := none }

/-- A context with empty cache slots and two trades. -/
def stratEmpty : Strategy :=
  { signal := none
    positions := none
    indexer := ixCC
    trades := ⟨[⟨['A'], 3⟩, ⟨['B'], -2⟩]⟩ }

/-- A context whose signal slot caches `deSignal` (creator tag 7). -/
def stratCached : Strategy :=
  { signal := some deSignal
    positions := none
    indexer := ixCC
    trades := ⟨[]⟩ }

/-- The signal stage with identity tag 7 (matches `deSignal.creator`). -/
def sigStage : StrategyElement := SignalElement 7 exeConst

/-- A distinct signal stage instance, identity tag 9. -/
def sigStage9 : StrategyElement := SignalElement 9 exeConst

/-- A position-rule stage with identity tag 8. -/
def posStage : StrategyElement := PositionRuleElement 8 exeConst

/-- A filter keeping profitable trades. -/
def profitFilter : FilterInterface := ⟨fun t => 0 < t.profit⟩

/-- A one-buffer heap. -/
def heap0 : Heap := ⟨[[some 1, some 2]]⟩

/-- A data-element reference into `heap0`. -/
def deRef0 : DataElementRef :=
  { dataRef := 0
    calculation_timing := [TimingLabel.decision]
    lag := 0
    indexer := ixCC
    creator := none }

/-!
Helper lemmas.
-/

theorem length_dfShift {v : Type} (d : List (Option v)) (k : Int) :
    (dfShift d k).length = d.length := by
  simp only [dfShift, List.length_map, List.length_range]

theorem get_dfShift {v : Type} (d : List (Option v)) (k : Int) (i : Nat)
    (hi : i < (dfShift d k).length) :
    (dfShift d k).get ⟨i, hi⟩ =
      if h : 0 ≤ (i : Int) - k ∧ (i : Int) - k < (d.length : Int) then
        d.get ⟨((i : Int) - k).toNat, by omega⟩
      else none := by
  simp only [dfShift, List.get_eq_getElem, List.getElem_map, List.getElem_range]

theorem dfShift_dfShift {v : Type} (d : List (Option v)) (a b : Int)
    (ha : 0 ≤ a) (hb : 0 ≤ b) :
    dfShift (dfShift d a) b = dfShift d (a + b) := by
  apply List.ext_get
  · simp only [length_dfShift]
  · intro i h1 h2
    have hid : i < d.length := by
      simpa only [length_dfShift] using h2
    rw [get_dfShift, get_dfShift]
    by_cases hb1 : 0 ≤ (i : Int) - b ∧ (i : Int) - b < ((dfShift d a).length : Int)
    · rw [length_dfShift] at hb1
      rw [dif_pos (by simpa only [length_dfShift] using hb1)]
      rw [get_dfShift]
      have hcast : ((((i : Int) - b).toNat : Int)) = (i : Int) - b :=
        Int.toNat_of_nonneg hb1.1
      by_cases hb2 : 0 ≤ ((((i : Int) - b).toNat : Int)) - a ∧
          ((((i : Int) - b).toNat : Int)) - a < (d.length : Int)
      · rw [dif_pos hb2]
        rw [dif_pos (show 0 ≤ (i : Int) - (a + b) ∧
              (i : Int) - (a + b) < (d.length : Int) by omega)]
        refine congrArg d.get (Fin.ext ?_)
        show ((((i : Int) - b).toNat : Int) - a).toNat = ((i : Int) - (a + b)).toNat
        omega
      · rw [dif_neg hb2]
        rw [dif_neg (by omega)]
    · rw [length_dfShift] at hb1
      rw [dif_neg (by simpa only [length_dfShift] using hb1)]
      rw [dif_neg (by omega)]

theorem Indexer.init_eq_some {tt it : List Char} {ix : Indexer}
    (h : Indexer.init tt it = some ix) :
    (tt = ['O', 'O'] ∨ tt = ['C', 'C']) ∧ (it = ['O'] ∨ it = ['C']) ∧
      ix = ⟨tt, it⟩ := by
  unfold Indexer.init at h
  split at h
  · split at h
    · rename_i h1 h2
      exact ⟨h1, h2, (Option.some_inj.mp h).symm⟩
    · cases h
  · cases h

theorem Indexer.get_lag_zero_or_one (ix : Indexer) (s e : TimingLabel) :
    ix.get_lag s e = 0 ∨ ix.get_lag s e = 1 := by
  unfold Indexer.get_lag
  by_cases hc : hasOC (ix.convert_timing s ++ ix.convert_timing e) = true
  · exact Or.inl (if_pos hc)
  · exact Or.inr (if_neg hc)

theorem DataElement.align_with_some {self other res : DataElement}
    (h : self.align_with other = some res) :
    ∃ t0 sEnd, other.calculation_timing.head? = some t0 ∧
      self.calculation_timing.getLast? = some sEnd ∧
      res = self.shift (self.indexer.get_lag sEnd t0 + other.lag) := by
  unfold DataElement.align_with at h
  cases hh : other.calculation_timing.head? with
  | none => rw [hh] at h; cases h
  | some t0 =>
    rw [hh] at h
    obtain ⟨l, hl1, hl2⟩ := Option.map_eq_some'.mp h
    unfold DataElement.get_lag at hl1
    cases hg : self.calculation_timing.getLast? with
    | none => rw [hg] at hl1; cases hl1
    | some sEnd =>
      rw [hg] at hl1
      cases Option.some_inj.mp hl1
      exact ⟨t0, sEnd, rfl, rfl, hl2.symm⟩

/-!
Claim theorems.
-/

/-- C1: for every configuration the constructor accepts and every pair of the
five recognized timing labels, `get_lag start finish` is 0 exactly when the
bucket of `start` is open and the bucket of `finish` is close, and is 1 in
every other case. -/
theorem Indexer.get_lag_zero_iff_open_close
    (tt it : List Char) (ix : Indexer) (h : Indexer.init tt it = some ix)
    (start finish : TimingLabel) :
    (ix.get_lag start finish = 0 ↔
      ix.convert_timing start = ['O'] ∧ ix.convert_timing finish = ['C']) ∧
    (¬(ix.convert_timing start = ['O'] ∧ ix.convert_timing finish = ['C']) →
      ix.get_lag start finish = 1) := by
  obtain ⟨h1, h2, rfl⟩ := Indexer.init_eq_some h
  rcases h1 with rfl | rfl <;> rcases h2 with rfl | rfl <;>
    revert start finish <;> decide

/-- Witness for C1: the close-to-close, close-decision configuration at the
(decision, entry) label pair. -/
theorem Indexer.get_lag_zero_iff_open_close_witness :
    Indexer.init ['C', 'C'] ['C'] = some ixCC ∧
    ((ixCC.get_lag .decision .entry = 0 ↔
      ixCC.convert_timing .decision = ['O'] ∧
        ixCC.convert_timing .entry = ['C']) ∧
    (¬(ixCC.convert_timing .decision = ['O'] ∧
        ixCC.convert_timing .entry = ['C']) →
      ixCC.get_lag .decision .entry = 1)) :=
  ⟨by decide,
    Indexer.get_lag_zero_iff_open_close ['C', 'C'] ['C'] ixCC (by decide)
      .decision .entry⟩

/-- C2: `align_with` returns `self` shifted by
`get_lag(self.calculation_timing[-1], other.calculation_timing[0]) + other.lag`,
and the returned object's lag is `self.lag` plus that total lag. -/
theorem DataElement.align_with_eq_shift_total_lag
    (self other : DataElement) (sEnd t0 : TimingLabel)
    (hs : self.calculation_timing.getLast? = some sEnd)
    (ho : other.calculation_timing.head? = some t0) :
    self.align_with other =
      some (self.shift (self.indexer.get_lag sEnd t0 + other.lag)) ∧
    ∀ res, self.align_with other = some res →
      res.lag = self.lag + (self.indexer.get_lag sEnd t0 + other.lag) := by
  have h1 : self.align_with other =
      some (self.shift (self.indexer.get_lag sEnd t0 + other.lag)) := by
    unfold DataElement.align_with
    rw [ho]
    unfold DataElement.get_lag
    rw [hs]
    rfl
  refine ⟨h1, ?_⟩
  intro res hres
  rw [h1] at hres
  cases Option.some_inj.mp hres
  rfl

/-- Witness for C2: a decision-timed element aligned with an entry-timed
element. -/
theorem DataElement.align_with_eq_shift_total_lag_witness :
    deSignal.calculation_timing.getLast? = some TimingLabel.decision ∧
    deOther.calculation_timing.head? = some TimingLabel.entry ∧
    (deSignal.align_with deOther =
      some (deSignal.shift
        (deSignal.indexer.get_lag TimingLabel.decision TimingLabel.entry +
          deOther.lag)) ∧
    ∀ res, deSignal.align_with deOther = some res →
      res.lag = deSignal.lag +
        (deSignal.indexer.get_lag TimingLabel.decision TimingLabel.entry +
          deOther.lag)) :=
  ⟨by decide, by decide,
    DataElement.align_with_eq_shift_total_lag deSignal deOther
      TimingLabel.decision TimingLabel.entry (by decide) (by decide)⟩

/-- C5: shifting twice by non-negative amounts composes additively, both in
the data and in the lag. -/
theorem DataElement.shift_shift_eq_shift_add
    (x : DataElement) (a b : Int) (ha : 0 ≤ a) (hb : 0 ≤ b) :
    ((x.shift a).shift b).data = (x.shift (a + b)).data ∧
    ((x.shift a).shift b).lag = (x.shift (a + b)).lag := by
  constructor
  · show dfShift (dfShift x.data a) b = dfShift x.data (a + b)
    exact dfShift_dfShift x.data a b ha hb
  · show x.lag + a + b = x.lag + (a + b)
    ring

/-- Witness for C5 at shifts 1 and 2. -/
theorem DataElement.shift_shift_eq_shift_add_witness :
    (0 : Int) ≤ 1 ∧ (0 : Int) ≤ 2 ∧
    (((deSignal.shift 1).shift 2).data = (deSignal.shift (1 + 2)).data ∧
     ((deSignal.shift 1).shift 2).lag = (deSignal.shift (1 + 2)).lag) :=
  ⟨by decide, by decide,
    DataElement.shift_shift_eq_shift_add deSignal 1 2 (by decide) (by decide)⟩

/-- C8: with a non-negative starting lag, the results of `at`, of
`align_with` against another non-negatively lagged element, and of `shift` by
a non-negative amount all have non-negative lag; `get_lag` itself only ever
returns 0 or 1. -/
theorem DataElement.lag_nonneg_preserved
    (self : DataElement) (hl : 0 ≤ self.lag) :
    (∀ t d, self.at_ t = some d → 0 ≤ d.lag) ∧
    (∀ other res, 0 ≤ other.lag → self.align_with other = some res →
      0 ≤ res.lag) ∧
    (∀ p : Int, 0 ≤ p → 0 ≤ (self.shift p).lag) ∧
    (∀ s e, self.indexer.get_lag s e = 0 ∨ self.indexer.get_lag s e = 1) := by
  refine ⟨?_, ?_, ?_, fun s e => Indexer.get_lag_zero_or_one self.indexer s e⟩
  · intro t d hd
    obtain ⟨l, hl1, hl2⟩ := Option.map_eq_some'.mp hd
    have hl01 : l = 0 ∨ l = 1 := by
      unfold DataElement.get_lag at hl1
      cases hgl : self.calculation_timing.getLast? with
      | none => rw [hgl] at hl1; cases hl1
      | some st =>
        rw [hgl] at hl1
        cases Option.some_inj.mp hl1
        exact Indexer.get_lag_zero_or_one self.indexer st t
    subst hl2
    show 0 ≤ self.lag + l
    rcases hl01 with rfl | rfl <;> omega
  · intro other res hol hres
    obtain ⟨t0, sEnd, _, _, rfl⟩ := DataElement.align_with_some hres
    show 0 ≤ self.lag + (self.indexer.get_lag sEnd t0 + other.lag)
    rcases Indexer.get_lag_zero_or_one self.indexer sEnd t0 with h0 | h0 <;>
      rw [h0] <;> omega
  · intro p hp
    show 0 ≤ self.lag + p
    omega

/-- Witness for C8: `deSignal` lagged to entry timing, shifted by 2, and its
indexer's lag values. -/
theorem DataElement.lag_nonneg_preserved_witness :
    0 ≤ (deSignal.shift 1).lag ∧
    0 ≤ (deSignal.shift 2).lag ∧
    (deSignal.indexer.get_lag .entry .exit = 0 ∨
      deSignal.indexer.get_lag .entry .exit = 1) :=
  ⟨(DataElement.lag_nonneg_preserved deSignal (by decide)).1
      TimingLabel.entry (deSignal.shift 1) (by decide),
   (DataElement.lag_nonneg_preserved deSignal (by decide)).2.2.1 2 (by decide),
   (DataElement.lag_nonneg_preserved deSignal (by decide)).2.2.2
      TimingLabel.entry TimingLabel.exit⟩

theorem StrategyElement.call_of_created (self : StrategyElement)
    (st : Strategy) (r : DataElement) (hs : self.get_result st = some r)
    (hc : r.creator = some self.ID) :
    self.call st = (st, r) := by
  unfold StrategyElement.call
  rw [hs]
  show (if r.creator = some self.ID then (st, r) else (st, self.stamp st)) =
    (st, r)
  rw [if_pos hc]

theorem StrategyElement.call_of_not_created (self : StrategyElement)
    (st : Strategy) (h : self.created (self.get_result st) = false) :
    self.call st = (st, self.stamp st) := by
  unfold StrategyElement.call
  cases hs : self.get_result st with
  | none => rfl
  | some r =>
    rw [hs] at h
    unfold StrategyElement.created at h
    show (if r.creator = some self.ID then (st, r) else (st, self.stamp st)) =
      (st, self.stamp st)
    rw [if_neg (of_decide_eq_false h)]

/-- C3 counterexample: on a context with an empty signal slot, invoking a
signal stage leaves the slot empty; the freshly stamped result is returned
but never stored into the context's slot, contrary to the claim. -/
theorem StrategyElement.call_does_not_store_result :
    ¬ ((sigStage.call stratEmpty).1.signal =
      some ((sigStage.call stratEmpty).2)) := by
  decide

/-- C3 (amended): on a cache miss the stage executes, stamps the fresh result
with its identity, its fixed calculation timing, the context's indexer, and
the starting lag of 0, and returns it together with the context left
unchanged; the result is not written into the context's slot. -/
theorem StrategyElement.call_stamps_and_returns_without_store
    (id1 id2 : Nat) (ex1 ex2 : Strategy → DataElement) (st : Strategy)
    (h1 : (SignalElement id1 ex1).created st.signal = false)
    (h2 : (PositionRuleElement id2 ex2).created st.positions = false) :
    (SignalElement id1 ex1).call st =
      (st, { ex1 st with
              creator := some id1
              indexer := st.indexer
              calculation_timing := [TimingLabel.decision]
              lag := 0 }) ∧
    (PositionRuleElement id2 ex2).call st =
      (st, { ex2 st with
              creator := some id2
              indexer := st.indexer
              calculation_timing := [TimingLabel.entry]
              lag := 0 }) ∧
    (SignalElement id1 ex1).starting_lag = 0 ∧
    (PositionRuleElement id2 ex2).starting_lag = 0 := by
  refine ⟨?_, ?_, rfl, rfl⟩
  · exact StrategyElement.call_of_not_created (SignalElement id1 ex1) st h1
  · exact StrategyElement.call_of_not_created (PositionRuleElement id2 ex2) st h2

/-- Witness for the amended C3: both stage categories invoked on the context
with empty slots. -/
theorem StrategyElement.call_stamps_and_returns_without_store_witness :
    (SignalElement 7 exeConst).call stratEmpty =
      (stratEmpty, { exeConst stratEmpty with
                      creator := some 7
                      indexer := stratEmpty.indexer
                      calculation_timing := [TimingLabel.decision]
                      lag := 0 }) ∧
    (PositionRuleElement 8 exeConst).call stratEmpty =
      (stratEmpty, { exeConst stratEmpty with
                      creator := some 8
                      indexer := stratEmpty.indexer
                      calculation_timing := [TimingLabel.entry]
                      lag := 0 }) ∧
    (SignalElement 7 exeConst).starting_lag = 0 ∧
    (PositionRuleElement 8 exeConst).starting_lag = 0 :=
  StrategyElement.call_stamps_and_returns_without_store 7 8 exeConst exeConst
    stratEmpty (by decide) (by decide)

/-- C4: a cache hit (slot filled, recorded creator equal to the stage's
identity) returns the cached object unchanged and does not depend on
`execute` at all; a stage whose identity differs from the recorded creator
instead returns a result freshly built from its own `execute`. -/
theorem StrategyElement.call_memoization
    (e : StrategyElement) (st : Strategy) (r : DataElement)
    (h : e.get_result st = some r) :
    (r.creator = some e.ID →
      e.call st = (st, r) ∧
      ∀ f : Strategy → DataElement,
        (StrategyElement.mk e.ID f e.get_result e.calculation_timing
          e.starting_lag).call st = (st, r)) ∧
    (r.creator ≠ some e.ID →
      e.call st = (st, e.stamp st) ∧
      (e.stamp st).data = (e.execute st).data ∧
      (e.stamp st).creator = some e.ID) := by
  constructor
  · intro hc
    exact ⟨StrategyElement.call_of_created e st r h hc,
      fun f => StrategyElement.call_of_created _ st r h hc⟩
  · intro hc
    refine ⟨?_, rfl, rfl⟩
    apply StrategyElement.call_of_not_created
    unfold StrategyElement.created
    rw [h]
    show decide (r.creator = some e.ID) = false
    exact decide_eq_false hc

/-- Witness for C4: the stage with identity 7 hits the cache of
`stratCached`; the distinct stage with identity 9 recomputes. -/
theorem StrategyElement.call_memoization_witness :
    sigStage.call stratCached = (stratCached, deSignal) ∧
    sigStage9.call stratCached = (stratCached, sigStage9.stamp stratCached) :=
  ⟨((StrategyElement.call_memoization sigStage stratCached deSignal
      (by decide)).1 (by decide)).1,
   ((StrategyElement.call_memoization sigStage9 stratCached deSignal
      (by decide)).2 (by decide)).1⟩

/-- C6: the code performs no timing-model compatibility check.  Aligning
`deSignal` (built under `ixCC`) with `deOther` (built under the different
timing model `ixOO`) returns a shifted result computed with `deSignal`'s own
indexer instead of failing. -/
theorem DataElement.align_with_mismatched_timing_model_returns_result :
    deSignal.indexer ≠ deOther.indexer ∧
    deSignal.align_with deOther = some (deSignal.shift 1) := by
  decide

theorem getD_append_sing_lt (l : List Buffer) (b : Buffer) (r : Nat)
    (hr : r < l.length) : (l ++ [b]).getD r [] = l.getD r [] := by
  rw [List.getD_eq_getElem?_getD, List.getD_eq_getElem?_getD,
    List.getElem?_append_left hr]

theorem getD_append_sing_self (l : List Buffer) (b : Buffer) :
    (l ++ [b]).getD l.length [] = b := by
  rw [List.getD_eq_getElem?_getD, List.getElem?_append_right (le_refl _)]
  simp

/-- C7: with the backing buffers explicit, `shift` leaves every buffer of the
input heap (in particular the receiver's) unchanged, leaves the receiver's
fields untouched, and hands back an object whose `data` lives in a freshly
allocated buffer distinct from the receiver's, holding the shifted copy of
the receiver's data. -/
theorem shiftH_no_mutation_fresh_buffer
    (h : Heap) (self : DataElementRef) (p : Int)
    (hv : self.dataRef < h.bufs.length) :
    (shiftH h self p).1.read self.dataRef = h.read self.dataRef ∧
    (∀ r, r < h.bufs.length → (shiftH h self p).1.read r = h.read r) ∧
    (shiftH h self p).2.dataRef ≠ self.dataRef ∧
    h.bufs.length ≤ (shiftH h self p).2.dataRef ∧
    (shiftH h self p).1.read (shiftH h self p).2.dataRef =
      dfShift (h.read self.dataRef) p ∧
    (shiftH h self p).2.lag = self.lag + p ∧
    (shiftH h self p).2.calculation_timing = self.calculation_timing := by
  have hread : ∀ r, r < h.bufs.length →
      (shiftH h self p).1.read r = h.read r := by
    intro r hr
    simp only [shiftH, Heap.alloc, Heap.read]
    generalize h.bufs.getD self.dataRef [] = B0
    generalize (h.bufs ++ [B0]).getD self.dataRef [] = B1
    have l1 : r < ((h.bufs ++ [B0]) ++ [B1]).length := by
      simp only [List.length_append, List.length_singleton]
      omega
    have l2 : r < (h.bufs ++ [B0]).length := by
      simp only [List.length_append, List.length_singleton]
      omega
    rw [getD_append_sing_lt _ _ _ l1, getD_append_sing_lt _ _ _ l2,
      getD_append_sing_lt _ _ _ hr]
  have hlen : (shiftH h self p).2.dataRef = h.bufs.length + 2 := by
    simp only [shiftH, Heap.alloc]
    simp only [List.length_append, List.length_singleton]
  refine ⟨hread self.dataRef hv, hread, ?_, ?_, ?_, rfl, rfl⟩
  · rw [hlen]; omega
  · rw [hlen]; omega
  · rw [hlen]
    simp only [shiftH, Heap.alloc, Heap.read]
    generalize hB0 : h.bufs.getD self.dataRef [] = B0
    generalize hB1 : (h.bufs ++ [B0]).getD self.dataRef [] = B1
    have h2 : ((h.bufs ++ [B0]) ++ [B1]).length = h.bufs.length + 2 := by
      simp only [List.length_append, List.length_singleton]
    rw [getD_append_sing_self, ← h2, getD_append_sing_self, ← hB1,
      getD_append_sing_lt _ _ _ hv, hB0]

/-- Witness for C7: shifting `deRef0` on `heap0` by 1. -/
theorem shiftH_no_mutation_fresh_buffer_witness :
    deRef0.dataRef < heap0.bufs.length ∧
    (shiftH heap0 deRef0 1).1.read deRef0.dataRef = heap0.read deRef0.dataRef ∧
    (shiftH heap0 deRef0 1).2.dataRef ≠ deRef0.dataRef :=
  ⟨by decide,
   (shiftH_no_mutation_fresh_buffer heap0 deRef0 1 (by decide)).1,
   (shiftH_no_mutation_fresh_buffer heap0 deRef0 1 (by decide)).2.2.1⟩

/-- C9: invoking a filter on a context partitions the trades by its
predicate: every kept trade satisfies it, every dropped trade does not
satisfy it (equivalently, every accepted trade of the input is kept), the
count does not grow, and the kept trades are an unmodified subsequence of
the input collection. -/
theorem FilterInterface.call_filters_trades
    (f : FilterInterface) (st : Strategy) :
    (∀ t, t ∈ (f.call st).items → f.accepted_trade t = true) ∧
    (∀ t, t ∈ st.trades.items → t ∉ (f.call st).items →
      f.accepted_trade t = false) ∧
    (∀ t, t ∈ st.trades.items → f.accepted_trade t = true →
      t ∈ (f.call st).items) ∧
    (f.call st).items.length ≤ st.trades.items.length ∧
    (f.call st).items.Sublist st.trades.items := by
  refine ⟨?_, ?_, ?_, ?_, ?_⟩
  · intro t ht
    exact List.of_mem_filter ht
  · intro t ht hnot
    cases hacc : f.accepted_trade t with
    | false => rfl
    | true => exact absurd (List.mem_filter_of_mem ht hacc) hnot
  · intro t ht hacc
    exact List.mem_filter_of_mem ht hacc
  · exact List.length_filter_le _ _
  · exact List.filter_sublist _

/-- Witness for C9: the profit filter on the two-trade context keeps the
profitable trade and drops the losing one. -/
theorem FilterInterface.call_filters_trades_witness :
    profitFilter.accepted_trade ⟨['A'], 3⟩ = true ∧
    profitFilter.accepted_trade ⟨['B'], -2⟩ = false ∧
    (⟨['A'], 3⟩ : Trade) ∈ (profitFilter.call stratEmpty).items ∧
    (profitFilter.call stratEmpty).items.length ≤
      stratEmpty.trades.items.length :=
  ⟨(FilterInterface.call_filters_trades profitFilter stratEmpty).1
      ⟨['A'], 3⟩ (by decide),
   (FilterInterface.call_filters_trades profitFilter stratEmpty).2.1
      ⟨['B'], -2⟩ (by decide) (by decide),
   (FilterInterface.call_filters_trades profitFilter stratEmpty).2.2.1
      ⟨['A'], 3⟩ (by decide) (by decide),
   (FilterInterface.call_filters_trades profitFilter stratEmpty).2.2.2.1⟩

/-- C10: for every configuration the constructor accepts, `trade_timing` is
never `"OC"`, so `market_returns` always lags the trade-close series by
exactly 1 period, and that lag agrees with `get_lag` applied to the entry and
exit labels. -/
theorem Indexer.market_returns_shift_one
    (tt it : List Char) (ix : Indexer) (h : Indexer.init tt it = some ix) :
    ix.trade_timing ≠ ['O', 'C'] ∧
    ix.market_returns_lag = 1 ∧
    ix.market_returns_lag = ix.get_lag .entry .exit ∧
    ∀ m : Market, ix.market_returns m = ix.market_returns_with m 1 := by
  obtain ⟨h1, h2, rfl⟩ := Indexer.init_eq_some h
  have hne : tt ≠ ['O', 'C'] := by
    rcases h1 with rfl | rfl <;> decide
  have hlag : Indexer.market_returns_lag ⟨tt, it⟩ = 1 := by
    unfold Indexer.market_returns_lag
    split
    · rename_i hc
      exact absurd hc hne
    · rfl
  refine ⟨hne, hlag, ?_, ?_⟩
  · rcases h1 with rfl | rfl <;> rcases h2 with rfl | rfl <;> decide
  · intro m
    unfold Indexer.market_returns
    rw [hlag]

/-- Witness for C10: the open-to-open configuration. -/
theorem Indexer.market_returns_shift_one_witness :
    Indexer.init ['O', 'O'] ['O'] = some ixOO ∧
    ixOO.market_returns_lag = 1 ∧
    ixOO.market_returns_lag = ixOO.get_lag .entry .exit :=
  ⟨by decide,
   (Indexer.market_returns_shift_one ['O', 'O'] ['O'] ixOO (by decide)).2.1,
   (Indexer.market_returns_shift_one ['O', 'O'] ['O'] ixOO (by decide)).2.2.1⟩
